import Mathlib

/-!
Shallow embedding of `cpm_converter.py` (class `CPMModelConverter`), the
converter from `.cpmmodel` binary containers to `.cpmproject` ZIP archives.

Modelling conventions:
* Python `bytes` values are `List Nat` (byte values 0..255).
* Python `str` values are `List Nat` of Unicode code points; string literals
  are written with `cp`.  `str.lower()` is modelled on the ASCII range (the
  only range exercised by the extension check).
* `json.loads` is modelled by `jsonLoads`: a strict UTF-8 decode of the byte
  slice followed by an RFC 8259 recursive-descent parse (objects keep
  insertion order, a duplicate key overwrites the value in place, exactly as
  Python's `dict` building does).  Python `int`/`float` literals are kept
  apart: a literal with a fraction or exponent becomes `Json.float m e`
  denoting `m * 10 ^ e`.
* The scanning loops of the source are written with an explicit iteration
  bound (`fuel`) so that they are structurally recursive; every loop of the
  source advances its cursor by at least one byte per iteration, so a bound
  of `data.length + 1` makes the bounded loop equal to the unbounded one
  (the `fuel = 0` base cases are unreachable from the top-level entry
  points, as the accompanying lemmas show).
* File-system and ZIP effects are made explicit: the file system is a map
  from path to content, an I/O failure while writing the archive is the
  `zipFail` flag, and a raised Python exception is the `Except.error` side of
  a result.  ZIP entry payloads are kept at document level (`ZipData.doc` for
  a `json.dumps` of a document, `ZipData.bin` for bytes, `ZipData.blank` for
  the empty string written to `.keep` entries).
-/

set_option maxRecDepth 8000

namespace Cpm

/-- Code points of a string literal (Python `str` values are code-point sequences). -/
def cp (s : String) : List Nat := s.toList.map Char.toNat

/-- Python slice `data[a:b]` for non-negative indices; both ends clamp to the
length of the sequence, and an empty slice results when `b ≤ a`. -/
def sliceBytes (data : List Nat) (a b : Nat) : List Nat := (data.take b).drop a

/-- Whether the pattern `pat` occurs in `data` starting exactly at position `p`
(the whole pattern must fit). -/
def matchesAt (pat data : List Nat) (p : Nat) : Bool :=
  decide ((data.drop p).take pat.length = pat)

/-- Bounded linear search for `pat` in `data` from position `s`. -/
def findSubAux (pat data : List Nat) : Nat → Nat → Option Nat
  | 0, _ => none
  | fuel + 1, s =>
    if s < data.length then
      if matchesAt pat data s then some s else findSubAux pat data fuel (s + 1)
    else none

/-- Python `bytes.find(pat, s)`: the first position `≥ s` at which `pat`
occurs, `none` standing for Python's `-1`. -/
def findSub (pat data : List Nat) (s : Nat) : Option Nat :=
  findSubAux pat data (data.length + 1) s

/-- Python `str.startswith` / `bytes.startswith`. -/
def listStartsWith (pre l : List Nat) : Bool := decide (l.take pre.length = pre)

/-- Python `str.endswith`. -/
def strEndsWith (l suf : List Nat) : Bool := decide (l.drop (l.length - suf.length) = suf)

/-- Python `str.lower()` restricted to the ASCII letters (the only characters
the converter's extension check can meaningfully lowercase). -/
def pyLower (l : List Nat) : List Nat :=
  l.map (fun c => if 65 ≤ c ∧ c ≤ 90 then c + 32 else c)

/-- JSON values as produced by `json.loads`.  Strings are code-point lists;
an integer literal becomes `int`, a literal with fraction or exponent becomes
`float m e` (denoting `m * 10 ^ e`); objects are insertion-ordered key/value
lists without duplicate keys. -/
inductive Json where
  | null : Json
  | bool : Bool → Json
  | int : Int → Json
  | float : Int → Int → Json
  | str : List Nat → Json
  | arr : List Json → Json
  | obj : List (List Nat × Json) → Json

/-- Python truthiness (`bool(x)`) of a JSON value: `None`, `False`, zero and
empty containers/strings are falsy. -/
def pyTruthy : Json → Bool
  | .null => false
  | .bool b => b
  | .int n => decide (n ≠ 0)
  | .float m _ => decide (m ≠ 0)
  | .str s => !s.isEmpty
  | .arr l => !l.isEmpty
  | .obj l => !l.isEmpty

/-- Python `dict.get(k)` on a JSON object (`none` standing for `None`; the
converter only ever calls `.get` on mappings). -/
def getKey : Json → List Nat → Option Json
  | .obj kvs, k => kvs.lookup k
  | _, _ => none

/-- Insertion into an insertion-ordered key/value list: a duplicate key
overwrites the stored value in place, as Python `dict` building does. -/
def objInsert (kvs : List (List Nat × Json)) (k : List Nat) (v : Json) :
    List (List Nat × Json) :=
  match kvs with
  | [] => [(k, v)]
  | (k0, v0) :: rest =>
    if k0 = k then (k0, v) :: rest else (k0, v0) :: objInsert rest k v

/-! ### Strict UTF-8 decoding (`bytes.decode('utf-8')`) -/

/-- A UTF-8 continuation byte. -/
def isContByte (b : Nat) : Bool := decide (128 ≤ b ∧ b ≤ 191)

/-- Strict UTF-8 decoding with fuel; rejects overlong forms, surrogates and
out-of-range code points, like Python's strict `utf-8` codec. -/
def utf8DecodeAux : Nat → List Nat → Option (List Nat)
  | _, [] => some []
  | 0, _ :: _ => none
  | fuel + 1, b :: rest =>
    if b < 128 then
      (utf8DecodeAux fuel rest).map (b :: ·)
    else if 194 ≤ b ∧ b ≤ 223 then
      match rest with
      | b1 :: r =>
        if isContByte b1 then
          (utf8DecodeAux fuel r).map (((b - 192) * 64 + (b1 - 128)) :: ·)
        else none
      | [] => none
    else if 224 ≤ b ∧ b ≤ 239 then
      match rest with
      | b1 :: b2 :: r =>
        let u := (b - 224) * 4096 + (b1 - 128) * 64 + (b2 - 128)
        if isContByte b1 ∧ isContByte b2 ∧ 2048 ≤ u ∧ ¬ (55296 ≤ u ∧ u ≤ 57343) then
          (utf8DecodeAux fuel r).map (u :: ·)
        else none
      | _ => none
    else if 240 ≤ b ∧ b ≤ 244 then
      match rest with
      | b1 :: b2 :: b3 :: r =>
        let u := (b - 240) * 262144 + (b1 - 128) * 4096 + (b2 - 128) * 64 + (b3 - 128)
        if isContByte b1 ∧ isContByte b2 ∧ isContByte b3 ∧ 65536 ≤ u ∧ u ≤ 1114111 then
          (utf8DecodeAux fuel r).map (u :: ·)
        else none
      | _ => none
    else none

/-- `bytes.decode('utf-8')`: code points of the byte string, or `none` when a
`UnicodeDecodeError` would be raised. -/
def utf8Decode (bytes : List Nat) : Option (List Nat) :=
  utf8DecodeAux (bytes.length + 1) bytes

/-! ### JSON parsing (`json.loads`) -/

/-- JSON insignificant whitespace. -/
def isJsonWs (c : Nat) : Bool := decide (c = 32 ∨ c = 9 ∨ c = 10 ∨ c = 13)

def skipWs (s : List Nat) : List Nat := s.dropWhile isJsonWs

/-- Value of a hexadecimal digit code point. -/
def hexVal (c : Nat) : Option Nat :=
  if 48 ≤ c ∧ c ≤ 57 then some (c - 48)
  else if 65 ≤ c ∧ c ≤ 70 then some (c - 55)
  else if 97 ≤ c ∧ c ≤ 102 then some (c - 87)
  else none

/-- After a `\uXXXX` escape whose value `u` is a high surrogate, CPython's
scanner looks ahead for an immediately following `\uXXXX` low surrogate and
combines the pair into one code point; otherwise the lone value stands. -/
def surrPair (u : Nat) (r3 : List Nat) : Nat × List Nat :=
  if 55296 ≤ u ∧ u ≤ 56319 then
    match r3 with
    | 92 :: 117 :: g1 :: g2 :: g3 :: g4 :: r4 =>
      match hexVal g1, hexVal g2, hexVal g3, hexVal g4 with
      | some w1, some w2, some w3, some w4 =>
        if 56320 ≤ w1 * 4096 + w2 * 256 + w3 * 16 + w4 ∧
            w1 * 4096 + w2 * 256 + w3 * 16 + w4 ≤ 57343 then
          (65536 + (u - 55296) * 1024 + (w1 * 4096 + w2 * 256 + w3 * 16 + w4 - 56320), r4)
        else (u, r3)
      | _, _, _, _ => (u, r3)
    | _ => (u, r3)
  else (u, r3)

/-- Parse the remainder of a JSON string literal after the opening quote,
returning its code points and the input after the closing quote.  Escapes are
those of RFC 8259, a `\uXXXX` high surrogate immediately followed by a
`\uXXXX` low surrogate combines into one code point (as CPython's scanner
does), and unescaped control characters are rejected (strict mode). -/
def parseStringRest : Nat → List Nat → Option (List Nat × List Nat)
  | 0, _ => none
  | _ + 1, [] => none
  | fuel + 1, c :: rest =>
    if c = 34 then some ([], rest)
    else if c = 92 then
      match rest with
      | [] => none
      | e :: r2 =>
        if e = 34 ∨ e = 92 ∨ e = 47 then
          (parseStringRest fuel r2).map (fun pr => (e :: pr.1, pr.2))
        else if e = 98 then (parseStringRest fuel r2).map (fun pr => (8 :: pr.1, pr.2))
        else if e = 102 then (parseStringRest fuel r2).map (fun pr => (12 :: pr.1, pr.2))
        else if e = 110 then (parseStringRest fuel r2).map (fun pr => (10 :: pr.1, pr.2))
        else if e = 114 then (parseStringRest fuel r2).map (fun pr => (13 :: pr.1, pr.2))
        else if e = 116 then (parseStringRest fuel r2).map (fun pr => (9 :: pr.1, pr.2))
        else if e = 117 then
          match r2 with
          | h1 :: h2 :: h3 :: h4 :: r3 =>
            match hexVal h1, hexVal h2, hexVal h3, hexVal h4 with
            | some v1, some v2, some v3, some v4 =>
              let upr := surrPair (v1 * 4096 + v2 * 256 + v3 * 16 + v4) r3
              (parseStringRest fuel upr.2).map (fun pr => (upr.1 :: pr.1, pr.2))
            | _, _, _, _ => none
          | _ => none
        else none
    else if c < 32 then none
    else (parseStringRest fuel rest).map (fun pr => (c :: pr.1, pr.2))

def isDigitCp (c : Nat) : Bool := decide (48 ≤ c ∧ c ≤ 57)

def digitsToNat (ds : List Nat) : Nat := ds.foldl (fun acc d => acc * 10 + (d - 48)) 0

/-- Fraction part `.digits` of a JSON number, if present (at least one digit
is required for the dot to belong to the number, as in Python's number regex). -/
def parseFracPart (s : List Nat) : Option (List Nat × List Nat) :=
  match s with
  | 46 :: r =>
    let fd := r.takeWhile isDigitCp
    if fd.isEmpty then none else some (fd, r.dropWhile isDigitCp)
  | _ => none

/-- Exponent part `[eE][+-]?digits` of a JSON number, if present. -/
def parseExpPart (s : List Nat) : Option (Int × List Nat) :=
  match s with
  | e :: r =>
    if e = 101 ∨ e = 69 then
      let sr : Int × List Nat :=
        match r with
        | 43 :: r3 => (1, r3)
        | 45 :: r3 => (-1, r3)
        | _ => (1, r)
      let ed := sr.2.takeWhile isDigitCp
      if ed.isEmpty then none
      else some (sr.1 * (digitsToNat ed : Int), sr.2.dropWhile isDigitCp)
    else none
  | [] => none

/-- Parse a JSON number token (grammar of RFC 8259 / Python's `NUMBER_RE`):
optional minus, an integer part without leading zeros, optional fraction and
exponent.  A plain integer literal yields `Json.int`; fraction or exponent
yields `Json.float`. -/
def parseNumber (s : List Nat) : Option (Json × List Nat) :=
  let ns : Bool × List Nat :=
    match s with
    | 45 :: r => (true, r)
    | _ => (false, s)
  match ns.2 with
  | [] => none
  | c :: r =>
    if isDigitCp c then
      let is2 : List Nat × List Nat :=
        if c = 48 then ([48], r)
        else ((c :: r).takeWhile isDigitCp, (c :: r).dropWhile isDigitCp)
      let fs3 : List Nat × List Nat :=
        match parseFracPart is2.2 with
        | some (fd, rest) => (fd, rest)
        | none => ([], is2.2)
      let es4 : Option Int × List Nat :=
        match parseExpPart fs3.2 with
        | some (ev, rest) => (some ev, rest)
        | none => (none, fs3.2)
      if fs3.1.isEmpty ∧ es4.1.isNone then
        let n : Int := (digitsToNat is2.1 : Int)
        some (.int (if ns.1 then -n else n), es4.2)
      else
        let m0 : Int := (digitsToNat (is2.1 ++ fs3.1) : Int)
        let m : Int := if ns.1 then -m0 else m0
        some (.float m ((es4.1.getD 0) - (fs3.1.length : Int)), es4.2)
    else none

mutual

/-- Parse one JSON value from the input (no leading whitespace), returning the
value and the remaining input. -/
def parseValue : Nat → List Nat → Option (Json × List Nat)
  | 0, _ => none
  | _ + 1, [] => none
  | fuel + 1, c :: rest =>
    if c = 110 then
      if rest.take 3 = [117, 108, 108] then some (.null, rest.drop 3) else none
    else if c = 116 then
      if rest.take 3 = [114, 117, 101] then some (.bool true, rest.drop 3) else none
    else if c = 102 then
      if rest.take 4 = [97, 108, 115, 101] then some (.bool false, rest.drop 4) else none
    else if c = 34 then
      (parseStringRest (rest.length + 1) rest).map (fun pr => (.str pr.1, pr.2))
    else if c = 123 then
      parseObjRest fuel (skipWs rest) []
    else if c = 91 then
      parseArrRest fuel (skipWs rest) []
    else parseNumber (c :: rest)

/-- Parse the members of a JSON object after the opening brace (leading
whitespace already skipped), accumulating the fields seen so far. -/
def parseObjRest : Nat → List Nat → List (List Nat × Json) → Option (Json × List Nat)
  | 0, _, _ => none
  | _ + 1, [], _ => none
  | fuel + 1, c :: rest, acc =>
    if c = 125 ∧ acc.isEmpty then some (.obj [], rest)
    else if c = 34 then
      match parseStringRest (rest.length + 1) rest with
      | none => none
      | some (key, r2) =>
        match skipWs r2 with
        | 58 :: r3 =>
          match parseValue fuel (skipWs r3) with
          | none => none
          | some (v, r4) =>
            match skipWs r4 with
            | 44 :: r5 => parseObjRest fuel (skipWs r5) (objInsert acc key v)
            | 125 :: r5 => some (.obj (objInsert acc key v), r5)
            | _ => none
        | _ => none
    else none

/-- Parse the elements of a JSON array after the opening bracket (leading
whitespace already skipped). -/
def parseArrRest : Nat → List Nat → List Json → Option (Json × List Nat)
  | 0, _, _ => none
  | _ + 1, [], _ => none
  | fuel + 1, c :: rest, acc =>
    if c = 93 ∧ acc.isEmpty then some (.arr [], rest)
    else
      match parseValue fuel (c :: rest) with
      | none => none
      | some (v, r2) =>
        match skipWs r2 with
        | 44 :: r3 => parseArrRest fuel (skipWs r3) (acc ++ [v])
        | 93 :: r3 => some (.arr (acc ++ [v]), r3)
        | _ => none

end

/-- `json.loads` on a byte string: strict UTF-8 decode, then a complete parse
of exactly one JSON value surrounded by optional whitespace.  The fuel bound
`2 * n + 4` can never be exhausted (every two fuel steps consume at least one
code point), so the parser behaves as the unbounded recursive-descent one. -/
def jsonLoads (bytes : List Nat) : Option Json :=
  match utf8Decode bytes with
  | none => none
  | some cps =>
    match parseValue (2 * cps.length + 4) (skipWs cps) with
    | some (v, rest) => if (skipWs rest).isEmpty then some v else none
    | none => none

/-! ### The Extractor: `CPMModelConverter.read_cpmmodel`

`read_cpmmodel` reads the whole file into `data` and then operates purely on
that buffer; the embedding takes the buffer and the path.  The outer
`try/except` of `read_cpmmodel` only fires on OS-level errors (every decode
or parse error inside the scan loops is caught locally), so the pure model
always returns the populated dictionary. -/

/-- Bounded form of the inner balanced-brace loop of the JSON scan (lines
98-105): starting just after an opening brace with depth 1, walk forward
treating every `{`/`}` byte as structural; returns the final scan position
and the final depth. -/
def braceScanEndAux (data : List Nat) : Nat → Nat → Nat → Nat × Nat
  | 0, jsonEnd, braceCount => (jsonEnd, braceCount)
  | fuel + 1, jsonEnd, braceCount =>
    if jsonEnd < data.length ∧ 0 < braceCount then
      braceScanEndAux data fuel (jsonEnd + 1)
        (if data.getD jsonEnd 0 = 123 then braceCount + 1
         else if data.getD jsonEnd 0 = 125 then braceCount - 1 else braceCount)
    else (jsonEnd, braceCount)

/-- The balanced-brace loop; the cursor grows by one per iteration and stops
at `data.length`, so `data.length + 1` iterations always suffice. -/
def braceScanEnd (data : List Nat) (jsonEnd braceCount : Nat) : Nat × Nat :=
  braceScanEndAux data (data.length + 1) jsonEnd braceCount

/-- One iteration of the JSON scan at candidate position `j`: the parsed value
when position `j` begins a balanced-brace region whose bytes decode and parse
as JSON, and `none` when this candidate is abandoned. -/
def scanHitAt (data : List Nat) (j : Nat) : Option Json :=
  if j + 1 < data.length then
    if data.getD j 0 = 123 then
      let r := braceScanEnd data (j + 1) 1
      if r.2 = 0 then jsonLoads (sliceBytes data j r.1) else none
    else none
  else none

/-- Bounded form of the JSON scan loop (lines 92-115): try each position `i`
of `range(len(data) - 1)` in order; the first candidate whose balanced-brace
slice parses wins and the loop breaks. -/
def jsonSearchAux (data : List Nat) : Nat → Nat → Option Json
  | 0, _ => none
  | fuel + 1, i =>
    if i + 1 < data.length then
      if data.getD i 0 = 123 then
        let r := braceScanEnd data (i + 1) 1
        if r.2 = 0 then
          match jsonLoads (sliceBytes data i r.1) with
          | some v => some v
          | none => jsonSearchAux data fuel (i + 1)
        else jsonSearchAux data fuel (i + 1)
      else jsonSearchAux data fuel (i + 1)
    else none

/-- The JSON scan loop from position `i` (at most `data.length` candidate
positions remain, so `data.length + 1` iterations always suffice). -/
def jsonSearch (data : List Nat) (i : Nat) : Option Json :=
  jsonSearchAux data (data.length + 1) i

/-- The 8-byte PNG signature. -/
def pngSignature : List Nat := [137, 80, 78, 71, 13, 10, 26, 10]

/-- The ASCII bytes of `IEND`. -/
def iendMarker : List Nat := [73, 69, 78, 68]

/-- The synthesized texture name `texture_<count>.png`. -/
def texName (c : Nat) : List Nat :=
  cp "texture_" ++ (Nat.toDigits 10 c).map Char.toNat ++ cp ".png"

/-- One entry of `model_data['textures']`. -/
structure Texture where
  name : List Nat
  data : List Nat
deriving DecidableEq

/-- Bounded form of the PNG texture scan loop (lines 122-142): find the next
signature from the cursor, look for the first `IEND` at or after it, record
the slice up to `IEND` plus 8 bytes when found, and resume searching one byte
past the signature. -/
def pngScanTexAux (data : List Nat) : Nat → Nat → Nat → List Texture
  | 0, _, _ => []
  | fuel + 1, searchStart, texCount =>
    match findSub pngSignature data searchStart with
    | none => []
    | some p =>
      match findSub iendMarker data p with
      | none => pngScanTexAux data fuel (p + 1) texCount
      | some e =>
        ⟨texName texCount, sliceBytes data p (e + 8)⟩ ::
          pngScanTexAux data fuel (p + 1) (texCount + 1)

/-- The PNG texture scan; the cursor advances by at least one byte per
iteration, so `data.length + 1` iterations always suffice. -/
def pngScanTex (data : List Nat) (searchStart texCount : Nat) : List Texture :=
  pngScanTexAux data (data.length + 1) searchStart texCount

/-- Bounded form of the positions at which the PNG scan records a texture
(a ghost companion of the scan used to state invariants about offsets). -/
def pngHitsAux (data : List Nat) : Nat → Nat → List Nat
  | 0, _ => []
  | fuel + 1, searchStart =>
    match findSub pngSignature data searchStart with
    | none => []
    | some p =>
      match findSub iendMarker data p with
      | none => pngHitsAux data fuel (p + 1)
      | some _ => p :: pngHitsAux data fuel (p + 1)

/-- The positions at which `pngScanTex` records a texture. -/
def pngHits (data : List Nat) (searchStart : Nat) : List Nat :=
  pngHitsAux data (data.length + 1) searchStart

/-- The texture recorded for a hit at position `p` with counter `c`. -/
def texAt (data : List Nat) (c p : Nat) : Texture :=
  ⟨texName c, sliceBytes data p (((findSub iendMarker data p).getD 0) + 8)⟩

/-- Textures corresponding to a list of hit positions, numbering from `c`. -/
def texturesOfHits (data : List Nat) : Nat → List Nat → List Texture
  | _, [] => []
  | c, p :: ps => texAt data c p :: texturesOfHits data (c + 1) ps

/-- Python `os.path.basename` (POSIX separators). -/
def basenameOf (p : List Nat) : List Nat := (p.reverse.takeWhile (· ≠ 47)).reverse

/-- Index of the last occurrence of `c`, if any. -/
def rfindCp (c : Nat) : List Nat → Option Nat
  | [] => none
  | a :: rest =>
    match rfindCp c rest with
    | some j => some (j + 1)
    | none => if a = c then some 0 else none

/-- Root part of Python `os.path.splitext`: strip the extension starting at
the last dot, unless every character between the last separator and that dot
is itself a dot (so dotfiles keep their name). -/
def splitextRoot (p : List Nat) : List Nat :=
  let dotIdx := rfindCp 46 p
  let sepIdx := rfindCp 47 p
  match dotIdx with
  | none => p
  | some d =>
    let start := match sepIdx with
      | none => 0
      | some sI => sI + 1
    if start ≤ d ∧ ((p.drop start).take (d - start)).any (· ≠ 46) then p.take d
    else p

/-- The fallback skeleton installed by `read_cpmmodel` when no JSON was
recovered (lines 147-153). -/
def fallbackSkeleton : Json :=
  .obj [(cp "version", .int 1), (cp "parts", .arr []), (cp "animations", .obj []),
        (cp "poses", .obj []), (cp "scaling", .obj [])]

/-- Filename-derived metadata of `model_data['metadata']`. -/
structure Metadata where
  filename : List Nat
  model_name : List Nat
  file_size : Nat
deriving DecidableEq

/-- The dictionary returned by `read_cpmmodel`.  Optional fields model
`dict.get` with a default in the Packager; `read_cpmmodel` itself always
populates every field. -/
structure ModelData where
  textures : List Texture
  model : Option Json
  animations : Json
  metadata : Option Metadata

/-- `CPMModelConverter.read_cpmmodel`, as a pure function of the file content
and the file path.  The surrounding `try/except` returns `{}` only on an
OS-level read error, which the pure model has no counterpart for. -/
def read_cpmmodel (data : List Nat) (file_path : List Nat) : ModelData :=
  let found := jsonSearch data 0
  let textures := pngScanTex data 0 0
  let model0 := found.getD (Json.obj [])
  let model1 := if pyTruthy model0 then model0 else fallbackSkeleton
  let filename := basenameOf file_path
  { textures := textures
    model := some model1
    animations := Json.obj []
    metadata := some
      { filename := filename
        model_name := splitextRoot filename
        file_size := data.length } }

/-! ### The Packager: `CPMModelConverter.create_cpmproject` -/

/-- Python exceptions the embedding distinguishes. -/
inductive PyExc where
  | fileNotFoundError : PyExc
  | valueError : PyExc
  | ioError : PyExc
deriving DecidableEq

/-- Payload of one ZIP entry. -/
inductive ZipData where
  | doc : Json → ZipData
  | bin : List Nat → ZipData
  | blank : ZipData

/-- A ZIP entry: archive path and payload. -/
abbrev ZipEntry : Type := List Nat × ZipData

/-- The default model document substituted by the Packager (lines 196-211). -/
def defaultModel11 : Json :=
  .obj [(cp "version", .int 11),
        (cp "parts", .arr []),
        (cp "scaling", .obj [(cp "head", .arr [.float 10 (-1), .float 10 (-1), .float 10 (-1)]),
                             (cp "body", .arr [.float 10 (-1), .float 10 (-1), .float 10 (-1)]),
                             (cp "leftArm", .arr [.float 10 (-1), .float 10 (-1), .float 10 (-1)]),
                             (cp "rightArm", .arr [.float 10 (-1), .float 10 (-1), .float 10 (-1)]),
                             (cp "leftLeg", .arr [.float 10 (-1), .float 10 (-1), .float 10 (-1)]),
                             (cp "rightLeg", .arr [.float 10 (-1), .float 10 (-1), .float 10 (-1)])]),
        (cp "animations", .obj []),
        (cp "poses", .obj []),
        (cp "root", .arr [])]

/-- Selection of the `model.json` document (lines 193-211): the recovered
model is kept exactly when it is truthy and its `parts` entry is truthy;
otherwise the default document replaces it. -/
def modelJsonFor (m : Option Json) : Json :=
  let mj := m.getD (Json.obj [])
  if !pyTruthy mj || !pyTruthy ((getKey mj (cp "parts")).getD Json.null) then defaultModel11
  else mj

/-- Archive path for a texture (lines 224-227): prefix `textures/` unless the
name already starts with it. -/
def texPathFor (name : List Nat) : List Nat :=
  if listStartsWith (cp "textures/") name then name else cp "textures/" ++ name

/-- The texture entries written by the loop of lines 218-231: one entry per
texture with truthy (non-empty) data, in order. -/
def texEntriesFor (textures : List Texture) : List ZipEntry :=
  textures.filterMap fun t =>
    if t.data.isEmpty then none else some (texPathFor t.name, ZipData.bin t.data)

/-- `CPMModelConverter.create_cpmproject`.  `zipFail` is the oracle for an
I/O error while opening or writing the archive; the function's own
`try/except` prints and re-raises, so the error is propagated (`Except.error`).
The returned pair is the list of entries written and the Python return value
of the function, which is `None` (the body has no `return` statement). -/
def create_cpmproject (zipFail : Bool) (model_data : ModelData) (_output_path : List Nat) :
    Except PyExc (List ZipEntry × Option Nat) :=
  if zipFail then .error .ioError
  else
    let mname := (model_data.metadata.map Metadata.model_name).getD (cp "Converted Model")
    let fname := (model_data.metadata.map Metadata.filename).getD (cp ".cpmmodel")
    let project_info : Json :=
      .obj [(cp "version", .str (cp "0.6.0")),
            (cp "name", .str mname),
            (cp "description", .str (cp "Converted from " ++ fname)),
            (cp "author", .str (cp "CPM Converter")),
            (cp "exportVersion", .str (cp "1.0.0"))]
    let model_json := modelJsonFor model_data.model
    let texEntries := texEntriesFor model_data.textures
    let entries : List ZipEntry :=
      [(cp "project.json", ZipData.doc project_info), (cp "model.json", ZipData.doc model_json)]
        ++ texEntries
        ++ (if texEntries.length = 0 then [(cp "textures/.keep", ZipData.blank)] else [])
        ++ [(cp "animations/.keep", ZipData.blank)]
    .ok (entries, none)

/-- The entries of the archive produced by a successful `create_cpmproject`
(empty when it raised). -/
def createdEntries (zipFail : Bool) (model_data : ModelData) (output_path : List Nat) :
    List ZipEntry :=
  match create_cpmproject zipFail model_data output_path with
  | .ok (entries, _) => entries
  | .error _ => []

/-- Number of texture entries (paths under `textures/` other than the
placeholder `textures/.keep`) in an entry list. -/
def countTexEntries (entries : List ZipEntry) : Nat :=
  (entries.filter fun en =>
    listStartsWith (cp "textures/") en.1 && decide (en.1 ≠ cp "textures/.keep")).length

/-! ### The orchestration: `CPMModelConverter.convert_cpmmodel_to_cpmproject` -/

/-- Python `input_path.rsplit('.', 1)[0]`. -/
def beforeLastDot (p : List Nat) : List Nat :=
  match rfindCp 46 p with
  | none => p
  | some d => p.take d

/-- `CPMModelConverter.convert_cpmmodel_to_cpmproject`.  The file system is a
map from path to content; `zipFail` is the archive-write failure oracle.  An
`Except.error` is an exception the function raises to its caller; `Except.ok`
is its boolean return value.  The `if not model_data` branch (line 264) is
unreachable in the pure model because `read_cpmmodel` returns `{}` only on an
OS-level read error. -/
def convert_cpmmodel_to_cpmproject (fs : List Nat → Option (List Nat)) (zipFail : Bool)
    (input_path : List Nat) (output_path : Option (List Nat)) : Except PyExc Bool :=
  match fs input_path with
  | none => .error .fileNotFoundError
  | some data =>
    if !strEndsWith (pyLower input_path) (cp ".cpmmodel") then .error .valueError
    else
      let out := output_path.getD (beforeLastDot input_path ++ cp ".cpmproject")
      let model_data := read_cpmmodel data input_path
      match create_cpmproject zipFail model_data out with
      | .error _ => .ok false
      | .ok _ => .ok true

/-- The texture count printed by the success report at line 273:
`len(model_data.get('textures', []))`. -/
def reportedTexCount (data : List Nat) (file_path : List Nat) : Nat :=
  (read_cpmmodel data file_path).textures.length

end Cpm

namespace Cpm

/-! ### Helper lemmas shared by the claim theorems -/

/-- The Extractor's fallback skeleton has an empty (falsy) `parts` list, so
the Packager always replaces it by the default document. -/
theorem modelJsonFor_skeleton : modelJsonFor (some fallbackSkeleton) = defaultModel11 := rfl

/-- When the JSON scan finds nothing, `read_cpmmodel` installs the fallback
skeleton. -/
theorem read_model_of_none {data fp : List Nat} (h : jsonSearch data 0 = none) :
    (read_cpmmodel data fp).model = some fallbackSkeleton := by
  simp [read_cpmmodel, h, pyTruthy]

/-- When the JSON scan finds the empty object, `read_cpmmodel` also installs
the fallback skeleton (the recovered `{}` is falsy). -/
theorem read_model_of_empty_obj {data fp : List Nat}
    (h : jsonSearch data 0 = some (Json.obj [])) :
    (read_cpmmodel data fp).model = some fallbackSkeleton := by
  simp [read_cpmmodel, h, pyTruthy]

/-- The textures field of the extraction result is the PNG scan. -/
theorem read_textures (data fp : List Nat) :
    (read_cpmmodel data fp).textures = pngScanTex data 0 0 := rfl

/-- A one-file file system mapping `m.cpmmodel` to the empty buffer. -/
def fsEmptyModel : List Nat → Option (List Nat) :=
  fun p => if p = cp "m.cpmmodel" then some [] else none

/-- The empty file system (no path exists). -/
def fsNone : List Nat → Option (List Nat) := fun _ => none

/-- A one-file file system mapping `m.txt` to the empty buffer. -/
def fsTxt : List Nat → Option (List Nat) :=
  fun p => if p = cp "m.txt" then some [] else none

end Cpm

namespace Cpm

/-! ### C1: behaviour of the conversion on a zero-length input file -/

/-- C1 counterexample: for an existing `.cpmmodel` file whose content is the
zero-length buffer, the top-level conversion does **not** report a failed
conversion — it succeeds and returns `True` (the extractor falls back to the
skeleton model and the default archive is written), so the claimed return
value `False` is wrong. -/
theorem c1_counterexample :
    convert_cpmmodel_to_cpmproject fsEmptyModel false (cp "m.cpmmodel") none =
      Except.ok true ∧
    (Except.ok true : Except PyExc Bool) ≠ Except.ok false := by
  refine ⟨rfl, ?_⟩
  intro h
  cases h

/-- C1 (amended): for an input file whose content is a zero-length byte
buffer, the top-level conversion completes without crashing and reports a
**successful** conversion, returning `True` (the extractor returns the
fallback-skeleton result rather than failing, and the default archive is
packaged). -/
theorem c1_theorem (fs : List Nat → Option (List Nat)) (path : List Nat)
    (out : Option (List Nat)) (hfs : fs path = some [])
    (hext : strEndsWith (pyLower path) (cp ".cpmmodel") = true) :
    convert_cpmmodel_to_cpmproject fs false path out = Except.ok true := by
  unfold convert_cpmmodel_to_cpmproject
  rw [hfs]
  simp [hext, create_cpmproject]

/-- C1 witness: the amended theorem applied to the concrete one-file system. -/
theorem c1_witness :
    convert_cpmmodel_to_cpmproject fsEmptyModel false (cp "m.cpmmodel") none =
      Except.ok true :=
  c1_theorem fsEmptyModel (cp "m.cpmmodel") none rfl rfl

/-! ### C6: which inputs make the top-level conversion raise -/

/-- C6 counterexample: the top-level conversion **does** raise to its caller
for a nonexistent file (`FileNotFoundError`) and for an existing file without
the `.cpmmodel` extension (`ValueError`); the two precondition checks sit
before the `try` block. -/
theorem c6_counterexample :
    convert_cpmmodel_to_cpmproject fsNone false (cp "missing.cpmmodel") none =
      Except.error PyExc.fileNotFoundError ∧
    convert_cpmmodel_to_cpmproject fsTxt false (cp "m.txt") none =
      Except.error PyExc.valueError := ⟨rfl, rfl⟩

/-- C6 (amended): the conversion raises `FileNotFoundError` when the input
path does not exist and `ValueError` when it lacks the `.cpmmodel` extension
(both checked before extraction begins); for every existing `.cpmmodel`
input it never raises — all failures inside the conversion body are caught
and surfaced as the boolean return value. -/
theorem c6_theorem :
    (∀ fs zipFail path out, fs path = none →
        convert_cpmmodel_to_cpmproject fs zipFail path out =
          Except.error PyExc.fileNotFoundError) ∧
    (∀ fs zipFail path out d, fs path = some d →
        strEndsWith (pyLower path) (cp ".cpmmodel") = false →
        convert_cpmmodel_to_cpmproject fs zipFail path out =
          Except.error PyExc.valueError) ∧
    (∀ fs zipFail path out d, fs path = some d →
        strEndsWith (pyLower path) (cp ".cpmmodel") = true →
        ∃ b, convert_cpmmodel_to_cpmproject fs zipFail path out = Except.ok b) := by
  refine ⟨?_, ?_, ?_⟩
  · intro fs zipFail path out h
    unfold convert_cpmmodel_to_cpmproject
    rw [h]
  · intro fs zipFail path out d h hext
    unfold convert_cpmmodel_to_cpmproject
    rw [h]
    simp [hext]
  · intro fs zipFail path out d h hext
    unfold convert_cpmmodel_to_cpmproject
    rw [h]
    simp only [hext, Bool.not_true, Bool.false_eq_true, if_false]
    cases zipFail with
    | true => exact ⟨false, rfl⟩
    | false => exact ⟨true, rfl⟩

/-- C6 witness: the amended theorem applied at concrete inputs. -/
theorem c6_witness :
    convert_cpmmodel_to_cpmproject fsNone false (cp "missing.cpmmodel") none =
      Except.error PyExc.fileNotFoundError ∧
    convert_cpmmodel_to_cpmproject fsTxt false (cp "m.txt") none =
      Except.error PyExc.valueError ∧
    ∃ b, convert_cpmmodel_to_cpmproject fsEmptyModel false (cp "m.cpmmodel") none =
      Except.ok b :=
  ⟨c6_theorem.1 fsNone false (cp "missing.cpmmodel") none rfl,
   c6_theorem.2.1 fsTxt false (cp "m.txt") none [] rfl rfl,
   c6_theorem.2.2 fsEmptyModel false (cp "m.cpmmodel") none [] rfl rfl⟩

/-! ### C7: what happens on a packaging I/O error -/

/-- C7 counterexample: when the Packager fails with an I/O error, the error
does propagate out of `create_cpmproject`, but the top-level conversion does
**not** re-raise it — its `except` clause catches every exception, prints,
and returns `False` (`Except.ok false`, not an `Except.error`). -/
theorem c7_counterexample :
    create_cpmproject true (read_cpmmodel [] (cp "m.cpmmodel")) (cp "m.cpmproject") =
      Except.error PyExc.ioError ∧
    convert_cpmmodel_to_cpmproject fsEmptyModel true (cp "m.cpmmodel") none =
      Except.ok false := ⟨rfl, rfl⟩

/-- C7 (amended): a packaging I/O error is reported and re-raised by
`create_cpmproject` (so it propagates to the top-level conversion), and the
top-level conversion then catches it, reports the failure, and **returns
`False` to its caller instead of re-raising**. -/
theorem c7_theorem (fs : List Nat → Option (List Nat)) (path : List Nat)
    (out : Option (List Nat)) (d : List Nat) (hfs : fs path = some d)
    (hext : strEndsWith (pyLower path) (cp ".cpmmodel") = true) :
    create_cpmproject true (read_cpmmodel d path)
        (out.getD (beforeLastDot path ++ cp ".cpmproject")) =
      Except.error PyExc.ioError ∧
    convert_cpmmodel_to_cpmproject fs true path out = Except.ok false := by
  constructor
  · rfl
  · unfold convert_cpmmodel_to_cpmproject
    rw [hfs]
    simp [hext, create_cpmproject]

/-- C7 witness: the amended theorem applied at a concrete input. -/
theorem c7_witness :
    create_cpmproject true (read_cpmmodel [] (cp "m.cpmmodel"))
        ((none : Option (List Nat)).getD (beforeLastDot (cp "m.cpmmodel") ++ cp ".cpmproject")) =
      Except.error PyExc.ioError ∧
    convert_cpmmodel_to_cpmproject fsEmptyModel true (cp "m.cpmmodel") none =
      Except.ok false :=
  c7_theorem fsEmptyModel (cp "m.cpmmodel") none [] rfl rfl

/-! ### C10: a recovered empty JSON object is replaced by the skeleton -/

/-- C10: if the JSON scan recovers the empty object `{}`, the extractor
discards it and installs the fallback skeleton
`{version: 1, parts: [], animations: {}, poses: {}, scaling: {}}`, exactly as
when no JSON was found at all. -/
theorem c10_theorem :
    (∀ data fp, jsonSearch data 0 = some (Json.obj []) →
        (read_cpmmodel data fp).model = some fallbackSkeleton) ∧
    (∀ data fp, jsonSearch data 0 = none →
        (read_cpmmodel data fp).model = some fallbackSkeleton) := by
  constructor
  · intro data fp h
    exact read_model_of_empty_obj h
  · intro data fp h
    exact read_model_of_none h

/-- C10 witness: the buffer `{}` (whose first parsed region is the empty
object) and the empty buffer (no JSON at all) both yield the skeleton. -/
theorem c10_witness :
    (read_cpmmodel [123, 125] (cp "m.cpmmodel")).model = some fallbackSkeleton ∧
    (read_cpmmodel [] (cp "m.cpmmodel")).model = some fallbackSkeleton :=
  ⟨c10_theorem.1 [123, 125] (cp "m.cpmmodel") rfl,
   c10_theorem.2 [] (cp "m.cpmmodel") rfl⟩

/-! ### C4: model.json selection and the two distinct defaults -/

/-- C4: the Packager emits the recovered model verbatim exactly when the
model is present (truthy) and its `parts` field is present and non-empty
(truthy); otherwise it substitutes the canonical default whose `version` is
11, which differs from the Extractor's fallback skeleton whose `version` is
1 — so an extraction that fell back to the skeleton (empty `parts`) is always
replaced by the version-11 default in the archive. -/
theorem c4_theorem :
    (∀ m : Json, pyTruthy m = true →
        pyTruthy ((getKey m (cp "parts")).getD Json.null) = true →
        modelJsonFor (some m) = m) ∧
    (∀ m : Json,
        pyTruthy m = false ∨ pyTruthy ((getKey m (cp "parts")).getD Json.null) = false →
        modelJsonFor (some m) = defaultModel11) ∧
    modelJsonFor none = defaultModel11 ∧
    getKey defaultModel11 (cp "version") = some (Json.int 11) ∧
    getKey fallbackSkeleton (cp "version") = some (Json.int 1) ∧
    Json.int 11 ≠ Json.int 1 ∧
    (∀ data fp, (read_cpmmodel data fp).model = some fallbackSkeleton →
        modelJsonFor (read_cpmmodel data fp).model = defaultModel11) := by
  refine ⟨?_, ?_, rfl, rfl, rfl, ?_, ?_⟩
  · intro m hm hp
    simp [modelJsonFor, hm, hp]
  · intro m hm
    cases hm with
    | inl hm => simp [modelJsonFor, hm]
    | inr hm => simp [modelJsonFor, hm]
  · intro h
    cases h
  · intro data fp h
    rw [h]
    exact modelJsonFor_skeleton

/-- C4 witness: the conjuncts of the theorem applied at concrete models and
at a concrete extraction run. -/
theorem c4_witness :
    modelJsonFor (some (Json.obj [(cp "parts", Json.arr [Json.null])])) =
      Json.obj [(cp "parts", Json.arr [Json.null])] ∧
    modelJsonFor (some (Json.obj [(cp "parts", Json.arr [])])) = defaultModel11 ∧
    modelJsonFor (read_cpmmodel [] (cp "m.cpmmodel")).model = defaultModel11 :=
  ⟨c4_theorem.1 _ rfl rfl,
   c4_theorem.2.1 _ (Or.inr rfl),
   c4_theorem.2.2.2.2.2.2 [] (cp "m.cpmmodel") (read_model_of_none rfl)⟩

end Cpm

namespace Cpm

/-! ### C9: the default archive for a buffer with no JSON and no PNG -/

/-- C9: for a buffer from which no JSON is recovered and no PNG image is
recovered, the produced archive's `model.json` is exactly the canonical
version-11 default document, the placeholder entries `textures/.keep` and
`animations/.keep` are present, and there is no other entry under
`textures/`. -/
theorem c9_theorem (data fp out : List Nat)
    (hjson : jsonSearch data 0 = none)
    (hpng : pngScanTex data 0 0 = []) :
    createdEntries false (read_cpmmodel data fp) out =
      [(cp "project.json", ZipData.doc (Json.obj
          [(cp "version", Json.str (cp "0.6.0")),
           (cp "name", Json.str (splitextRoot (basenameOf fp))),
           (cp "description", Json.str (cp "Converted from " ++ basenameOf fp)),
           (cp "author", Json.str (cp "CPM Converter")),
           (cp "exportVersion", Json.str (cp "1.0.0"))])),
       (cp "model.json", ZipData.doc defaultModel11),
       (cp "textures/.keep", ZipData.blank),
       (cp "animations/.keep", ZipData.blank)] ∧
    countTexEntries (createdEntries false (read_cpmmodel data fp) out) = 0 := by
  have hE : createdEntries false (read_cpmmodel data fp) out =
      [(cp "project.json", ZipData.doc (Json.obj
          [(cp "version", Json.str (cp "0.6.0")),
           (cp "name", Json.str (splitextRoot (basenameOf fp))),
           (cp "description", Json.str (cp "Converted from " ++ basenameOf fp)),
           (cp "author", Json.str (cp "CPM Converter")),
           (cp "exportVersion", Json.str (cp "1.0.0"))])),
       (cp "model.json", ZipData.doc defaultModel11),
       (cp "textures/.keep", ZipData.blank),
       (cp "animations/.keep", ZipData.blank)] := by
    simp [createdEntries, create_cpmproject, read_cpmmodel, hjson, hpng, pyTruthy,
      modelJsonFor_skeleton, texEntriesFor]
  exact ⟨hE, by rw [hE]; rfl⟩

end Cpm

namespace Cpm

/-- C9 witness: the theorem applied to the empty buffer (no JSON, no PNG). -/
theorem c9_witness :
    createdEntries false (read_cpmmodel [] (cp "m.cpmmodel")) (cp "m.cpmproject") =
      [(cp "project.json", ZipData.doc (Json.obj
          [(cp "version", Json.str (cp "0.6.0")),
           (cp "name", Json.str (splitextRoot (basenameOf (cp "m.cpmmodel")))),
           (cp "description", Json.str (cp "Converted from " ++ basenameOf (cp "m.cpmmodel"))),
           (cp "author", Json.str (cp "CPM Converter")),
           (cp "exportVersion", Json.str (cp "1.0.0"))])),
       (cp "model.json", ZipData.doc defaultModel11),
       (cp "textures/.keep", ZipData.blank),
       (cp "animations/.keep", ZipData.blank)] ∧
    countTexEntries (createdEntries false (read_cpmmodel [] (cp "m.cpmmodel"))
      (cp "m.cpmproject")) = 0 :=
  c9_theorem [] (cp "m.cpmmodel") (cp "m.cpmproject") rfl rfl

end Cpm

namespace Cpm

/-! ### Specification lemmas for the byte-pattern search -/

theorem matchesAt_true_bound {pat data : List Nat} {q : Nat} (hne : pat ≠ [])
    (h : matchesAt pat data q = true) : q + pat.length ≤ data.length := by
  simp only [matchesAt, decide_eq_true_eq] at h
  have hlen := congrArg List.length h
  simp only [List.length_take, List.length_drop] at hlen
  have hpos : 0 < pat.length := List.length_pos.mpr hne
  omega

theorem findSubAux_some_spec {pat data : List Nat} :
    ∀ {fuel s p : Nat}, findSubAux pat data fuel s = some p →
      s ≤ p ∧ p < data.length ∧ matchesAt pat data p = true ∧
        ∀ q, s ≤ q → q < p → matchesAt pat data q = false := by
  intro fuel
  induction fuel with
  | zero => intro s p h; cases h
  | succ fuel ih =>
    intro s p h
    simp only [findSubAux] at h
    split at h
    · rename_i hs
      split at h
      · rename_i hm
        cases h
        exact ⟨le_rfl, hs, hm, fun q hq1 hq2 => absurd hq1 (by omega)⟩
      · rename_i hm
        obtain ⟨h1, h2, h3, h4⟩ := ih h
        refine ⟨by omega, h2, h3, ?_⟩
        intro q hq1 hq2
        rcases Nat.eq_or_lt_of_le hq1 with he | hlt
        · rw [← he]
          simpa using hm
        · exact h4 q hlt hq2
    · cases h

theorem findSubAux_none_spec {pat data : List Nat} :
    ∀ {fuel s : Nat}, data.length + 1 ≤ fuel + s → findSubAux pat data fuel s = none →
      ∀ q, s ≤ q → q < data.length → matchesAt pat data q = false := by
  intro fuel
  induction fuel with
  | zero => intro s hle h q hq1 hq2; omega
  | succ fuel ih =>
    intro s hle h q hq1 hq2
    simp only [findSubAux] at h
    split at h
    · split at h
      · cases h
      · rename_i hm
        rcases Nat.eq_or_lt_of_le hq1 with he | hlt
        · rw [← he]
          simpa using hm
        · exact ih (by omega) h q hlt hq2
    · rename_i hs
      omega

theorem findSub_some_spec {pat data : List Nat} {s p : Nat}
    (h : findSub pat data s = some p) :
    s ≤ p ∧ p < data.length ∧ matchesAt pat data p = true ∧
      ∀ q, s ≤ q → q < p → matchesAt pat data q = false :=
  findSubAux_some_spec h

theorem findSub_none_spec {pat data : List Nat} {s : Nat} (h : findSub pat data s = none) :
    ∀ q, s ≤ q → q < data.length → matchesAt pat data q = false :=
  findSubAux_none_spec (by omega) h

theorem findSub_eq_some {pat data : List Nat} {s p : Nat} (hs : s ≤ p)
    (hm : matchesAt pat data p = true) (hlt : p < data.length)
    (hmin : ∀ q, s ≤ q → q < p → matchesAt pat data q = false) :
    findSub pat data s = some p := by
  cases h : findSub pat data s with
  | none =>
    have := findSub_none_spec h p hs hlt
    rw [hm] at this
    cases this
  | some p2 =>
    obtain ⟨h1, h2, h3, h4⟩ := findSub_some_spec h
    rcases lt_trichotomy p2 p with hc | hc | hc
    · rw [hmin p2 h1 hc] at h3
      cases h3
    · rw [hc]
    · rw [h4 p hs hc] at hm
      cases hm

/-! ### The PNG scan: hit positions and recorded textures -/

theorem pngScanTexAux_eq (data : List Nat) :
    ∀ fuel s c, pngScanTexAux data fuel s c = texturesOfHits data c (pngHitsAux data fuel s) := by
  intro fuel
  induction fuel with
  | zero => intro s c; rfl
  | succ fuel ih =>
    intro s c
    simp only [pngScanTexAux, pngHitsAux]
    cases hf : findSub pngSignature data s with
    | none => rfl
    | some p =>
      dsimp only
      cases hi : findSub iendMarker data p with
      | none =>
        dsimp only
        exact ih (p + 1) c
      | some e =>
        dsimp only
        simp only [texturesOfHits, texAt, hi, Option.getD_some]
        rw [ih (p + 1) (c + 1)]

theorem pngHitsAux_lb (data : List Nat) :
    ∀ fuel s q, q ∈ pngHitsAux data fuel s → s ≤ q := by
  intro fuel
  induction fuel with
  | zero => intro s q h; cases h
  | succ fuel ih =>
    intro s q h
    cases hf : findSub pngSignature data s with
    | none =>
      simp only [pngHitsAux, hf] at h
      cases h
    | some p =>
      have hsp := (findSub_some_spec hf).1
      cases hi : findSub iendMarker data p with
      | none =>
        simp only [pngHitsAux, hf, hi] at h
        have := ih (p + 1) q h
        omega
      | some e =>
        simp only [pngHitsAux, hf, hi] at h
        rcases List.mem_cons.mp h with he | hmem
        · omega
        · have := ih (p + 1) q hmem
          omega

theorem pngHitsAux_sorted (data : List Nat) :
    ∀ fuel s, List.Pairwise (· < ·) (pngHitsAux data fuel s) := by
  intro fuel
  induction fuel with
  | zero => intro s; exact List.Pairwise.nil
  | succ fuel ih =>
    intro s
    simp only [pngHitsAux]
    cases hf : findSub pngSignature data s with
    | none => exact List.Pairwise.nil
    | some p =>
      dsimp only
      cases hi : findSub iendMarker data p with
      | none =>
        dsimp only
        exact ih (p + 1)
      | some e =>
        dsimp only
        refine List.Pairwise.cons ?_ (ih (p + 1))
        intro q hq
        have := pngHitsAux_lb data fuel (p + 1) q hq
        omega

theorem pngSignature_ne_nil : pngSignature ≠ [] := by simp [pngSignature]

theorem pngSignature_length : pngSignature.length = 8 := rfl

theorem pngHitsAux_mem (data : List Nat) :
    ∀ fuel s q, data.length + 1 ≤ fuel + s →
      (q ∈ pngHitsAux data fuel s ↔
        s ≤ q ∧ matchesAt pngSignature data q = true ∧
          (findSub iendMarker data q).isSome = true) := by
  intro fuel
  induction fuel with
  | zero =>
    intro s q hle
    constructor
    · intro h; cases h
    · rintro ⟨h1, h2, _⟩
      have hb := matchesAt_true_bound pngSignature_ne_nil h2
      rw [pngSignature_length] at hb
      omega
  | succ fuel ih =>
    intro s q hle
    simp only [pngHitsAux]
    cases hf : findSub pngSignature data s with
    | none =>
      dsimp only
      simp only [List.not_mem_nil, false_iff]
      rintro ⟨h1, h2, _⟩
      have hb := matchesAt_true_bound pngSignature_ne_nil h2
      rw [pngSignature_length] at hb
      have := findSub_none_spec hf q h1 (by omega)
      rw [this] at h2
      cases h2
    | some p =>
      dsimp only
      obtain ⟨hsp, hplen, hpm, hmin⟩ := findSub_some_spec hf
      cases hi : findSub iendMarker data p with
      | none =>
        dsimp only
        rw [ih (p + 1) q (by omega)]
        constructor
        · rintro ⟨h1, h2, h3⟩
          exact ⟨by omega, h2, h3⟩
        · rintro ⟨h1, h2, h3⟩
          rcases Nat.lt_or_ge q (p + 1) with hq | hq
          · rcases Nat.lt_or_ge q p with hq2 | hq2
            · rw [hmin q h1 hq2] at h2
              cases h2
            · have hqp : q = p := by omega
              rw [hqp, hi] at h3
              cases h3
          · exact ⟨hq, h2, h3⟩
      | some e =>
        dsimp only
        constructor
        · intro h
          rcases List.mem_cons.mp h with he | hmem
          · rw [he]
            exact ⟨hsp, hpm, by rw [hi]; rfl⟩
          · obtain ⟨h1, h2, h3⟩ := (ih (p + 1) q (by omega)).mp hmem
            exact ⟨by omega, h2, h3⟩
        · rintro ⟨h1, h2, h3⟩
          rcases Nat.lt_or_ge q p with hq2 | hq2
          · rw [hmin q h1 hq2] at h2
            cases h2
          · rcases Nat.eq_or_lt_of_le hq2 with he | hlt
            · rw [← he]
              exact List.mem_cons_self _ _
            · exact List.mem_cons_of_mem _ ((ih (p + 1) q (by omega)).mpr ⟨hlt, h2, h3⟩)

theorem pngHits_mem (data : List Nat) (q : Nat) :
    q ∈ pngHits data 0 ↔
      matchesAt pngSignature data q = true ∧ (findSub iendMarker data q).isSome = true := by
  rw [pngHits, pngHitsAux_mem data (data.length + 1) 0 q (by omega)]
  simp

theorem pngScanTex_eq_hits (data : List Nat) (s c : Nat) :
    pngScanTex data s c = texturesOfHits data c (pngHits data s) :=
  pngScanTexAux_eq data (data.length + 1) s c

theorem pngHits_sorted (data : List Nat) (s : Nat) :
    List.Pairwise (· < ·) (pngHits data s) := pngHitsAux_sorted data _ s

theorem texturesOfHits_mem (data : List Nat) :
    ∀ ps c t, t ∈ texturesOfHits data c ps → ∃ c2 p, p ∈ ps ∧ t = texAt data c2 p := by
  intro ps
  induction ps with
  | nil => intro c t h; cases h
  | cons p ps ih =>
    intro c t h
    simp only [texturesOfHits] at h
    rcases List.mem_cons.mp h with he | hmem
    · exact ⟨c, p, List.mem_cons_self _ _, he⟩
    · obtain ⟨c2, q, hq, ht⟩ := ih (c + 1) t hmem
      exact ⟨c2, q, List.mem_cons_of_mem _ hq, ht⟩

end Cpm

namespace Cpm

/-! ### C5: the per-texture byte-range invariant -/

/-- The per-texture byte-range property as claim C5 states it: the recorded
range begins at a PNG-signature match, `IEND` is found after it, and the
range ends at the first subsequent `IEND` marker **plus its full trailing
4-byte checksum** (so the end offset `e + 8` lies within the buffer). -/
def claimedTexSpan (data : List Nat) (t : Texture) : Prop :=
  ∃ p, p < data.length ∧ matchesAt pngSignature data p = true ∧
    (findSub iendMarker data p).isSome = true ∧
    (findSub iendMarker data p).getD 0 + 8 ≤ data.length ∧
    t.data = sliceBytes data p ((findSub iendMarker data p).getD 0 + 8)

/-- C5 counterexample: the 12-byte buffer consisting of the PNG signature
immediately followed by `IEND` (no checksum bytes, buffer ends).  The scan
still records a texture for it, but that texture's range ends at the buffer
end — 4 bytes **before** the claimed signature-to-checksum-end span — so not
every recorded texture ends at `IEND` plus a 4-byte checksum. -/
theorem c5_counterexample :
    pngScanTex (pngSignature ++ iendMarker) 0 0 =
      [⟨texName 0, pngSignature ++ iendMarker⟩] ∧
    ¬ claimedTexSpan (pngSignature ++ iendMarker) ⟨texName 0, pngSignature ++ iendMarker⟩ := by
  refine ⟨rfl, ?_⟩
  rintro ⟨p, hp, hm, hsome, hle, heq⟩
  have hall : ∀ q, q < 12 → matchesAt pngSignature (pngSignature ++ iendMarker) q = true →
      q = 0 := by decide
  have hp0 : p = 0 := hall p (by simpa [pngSignature, iendMarker] using hp) hm
  rw [hp0, show findSub iendMarker (pngSignature ++ iendMarker) 0 = some 8 from rfl] at hle
  simp [pngSignature, iendMarker] at hle

/-- C5 (amended): for every input buffer, the recorded hit positions are
strictly increasing (no two textures share a start position); every recorded
texture begins with the exact 8-byte PNG signature and spans from a signature
match `p` to the first subsequent `IEND` marker plus its trailing 4-byte
checksum, **truncated at the buffer end** (its length is
`min (e + 8) data.length - p`, so the checksum is included only when it fits);
and a signature occurrence with no subsequent `IEND` yields no texture. -/
theorem c5_theorem (data : List Nat) :
    List.Pairwise (· < ·) (pngHits data 0) ∧
    (∀ t ∈ pngScanTex data 0 0,
      t.data.take 8 = pngSignature ∧
      ∃ p e, matchesAt pngSignature data p = true ∧
        findSub iendMarker data p = some e ∧
        t.data = sliceBytes data p (e + 8) ∧
        t.data.length = min (e + 8) data.length - p) ∧
    (∀ p, matchesAt pngSignature data p = true → findSub iendMarker data p = none →
      p ∉ pngHits data 0) := by
  refine ⟨pngHits_sorted data 0, ?_, ?_⟩
  · intro t ht
    rw [pngScanTex_eq_hits] at ht
    obtain ⟨c2, p, hp, rfl⟩ := texturesOfHits_mem data (pngHits data 0) 0 t ht
    obtain ⟨hm, hsome⟩ := (pngHits_mem data p).mp hp
    obtain ⟨e, he⟩ := Option.isSome_iff_exists.mp hsome
    obtain ⟨hpe, helen, _, _⟩ := findSub_some_spec he
    have hm2 : (data.drop p).take 8 = pngSignature := by
      have := hm
      simp only [matchesAt, decide_eq_true_eq, pngSignature_length] at this
      exact this
    constructor
    · show (sliceBytes data p ((findSub iendMarker data p).getD 0 + 8)).take 8 = pngSignature
      rw [he, Option.getD_some, sliceBytes, List.drop_take, List.take_take]
      rw [show min 8 (e + 8 - p) = 8 by omega]
      exact hm2
    · refine ⟨p, e, hm, he, ?_, ?_⟩
      · show sliceBytes data p ((findSub iendMarker data p).getD 0 + 8) =
          sliceBytes data p (e + 8)
        rw [he, Option.getD_some]
      · show (sliceBytes data p ((findSub iendMarker data p).getD 0 + 8)).length =
          min (e + 8) data.length - p
        rw [he, Option.getD_some, sliceBytes]
        simp [List.length_drop, List.length_take]
  · intro p hm hnone hmem
    obtain ⟨_, hsome⟩ := (pngHits_mem data p).mp hmem
    rw [hnone] at hsome
    cases hsome

/-- C5 witness: the amended theorem applied to a complete one-image buffer. -/
theorem c5_witness :
    (⟨texName 0, pngSignature ++ iendMarker ++ [0, 0, 0, 0]⟩ : Texture).data.take 8 =
      pngSignature ∧
    ∃ p e,
      matchesAt pngSignature (pngSignature ++ iendMarker ++ [0, 0, 0, 0]) p = true ∧
      findSub iendMarker (pngSignature ++ iendMarker ++ [0, 0, 0, 0]) p = some e ∧
      (⟨texName 0, pngSignature ++ iendMarker ++ [0, 0, 0, 0]⟩ : Texture).data =
        sliceBytes (pngSignature ++ iendMarker ++ [0, 0, 0, 0]) p (e + 8) ∧
      (⟨texName 0, pngSignature ++ iendMarker ++ [0, 0, 0, 0]⟩ : Texture).data.length =
        min (e + 8) (pngSignature ++ iendMarker ++ [0, 0, 0, 0]).length - p :=
  (c5_theorem (pngSignature ++ iendMarker ++ [0, 0, 0, 0])).2.1
    ⟨texName 0, pngSignature ++ iendMarker ++ [0, 0, 0, 0]⟩
    (by rw [show pngScanTex (pngSignature ++ iendMarker ++ [0, 0, 0, 0]) 0 0 =
          [⟨texName 0, pngSignature ++ iendMarker ++ [0, 0, 0, 0]⟩] from rfl]
        exact List.mem_singleton.mpr rfl)

end Cpm

namespace Cpm

/-! ### C8: the Packager's return value and the reported texture count -/

theorem texName_not_in_texturesDir (c : Nat) :
    listStartsWith (cp "textures/") (texName c) = false := by
  rw [listStartsWith, decide_eq_false_iff_not]
  intro h
  have h7 : ((texName c).take (cp "textures/").length).get? 7 = some 95 := rfl
  rw [h] at h7
  exact absurd h7 (by decide)

theorem texPathFor_texName (c : Nat) :
    texPathFor (texName c) = cp "textures/" ++ texName c := by
  rw [texPathFor, texName_not_in_texturesDir]
  simp

theorem texPath_ne_keep (c : Nat) :
    cp "textures/" ++ texName c ≠ cp "textures/.keep" := by
  intro h
  have h9 : (cp "textures/" ++ texName c).get? 9 = some 116 := rfl
  rw [h] at h9
  exact absurd h9 (by decide)

theorem listStartsWith_self_append (pre l : List Nat) :
    listStartsWith pre (pre ++ l) = true := by
  simp [listStartsWith, List.take_left]

/-- Every texture the PNG scan records has at least 8 bytes of data (the
signature always fits below the end offset) and carries a synthesized
`texture_<k>.png` name. -/
theorem pngScanTex_tex_shape (data : List Nat) :
    ∀ t ∈ pngScanTex data 0 0, 8 ≤ t.data.length ∧ ∃ c2, t.name = texName c2 := by
  intro t ht
  rw [pngScanTex_eq_hits] at ht
  obtain ⟨c2, p, hp, rfl⟩ := texturesOfHits_mem data (pngHits data 0) 0 t ht
  obtain ⟨hm, hsome⟩ := (pngHits_mem data p).mp hp
  obtain ⟨e, he⟩ := Option.isSome_iff_exists.mp hsome
  obtain ⟨hpe, helen, _, _⟩ := findSub_some_spec he
  have hb := matchesAt_true_bound pngSignature_ne_nil hm
  rw [pngSignature_length] at hb
  constructor
  · show 8 ≤ (sliceBytes data p ((findSub iendMarker data p).getD 0 + 8)).length
    rw [he, Option.getD_some, sliceBytes]
    simp only [List.length_drop, List.length_take]
    omega
  · exact ⟨c2, rfl⟩

theorem texEntriesFor_of_nonempty (ts : List Texture)
    (h : ∀ t ∈ ts, t.data.isEmpty = false) :
    texEntriesFor ts = ts.map (fun t => (texPathFor t.name, ZipData.bin t.data)) := by
  induction ts with
  | nil => rfl
  | cons t ts ih =>
    simp only [texEntriesFor, List.filterMap_cons, h t (List.mem_cons_self _ _),
      Bool.false_eq_true, if_false, List.map_cons]
    simp only [texEntriesFor] at ih
    rw [ih (fun u hu => h u (List.mem_cons_of_mem _ hu))]

theorem countTexEntries_cons_skip (path : List Nat) (d : ZipData) (rest : List ZipEntry)
    (hp : (listStartsWith (cp "textures/") path && decide (path ≠ cp "textures/.keep")) = false) :
    countTexEntries ((path, d) :: rest) = countTexEntries rest := by
  simp only [countTexEntries, List.filter_cons]
  rw [show (listStartsWith (cp "textures/") ((path, d) : ZipEntry).1 &&
      decide (((path, d) : ZipEntry).1 ≠ cp "textures/.keep")) = false from hp]
  simp

theorem countTexEntries_append (l1 l2 : List ZipEntry) :
    countTexEntries (l1 ++ l2) = countTexEntries l1 + countTexEntries l2 := by
  simp [countTexEntries, List.filter_append]

/-- For a model-data record whose textures all have non-empty data and
synthesized names, the number of texture entries in the archive equals the
number of textures in the record. -/
theorem countTexEntries_create (md : ModelData) (out : List Nat)
    (h : ∀ t ∈ md.textures, t.data.isEmpty = false ∧ ∃ c2, t.name = texName c2) :
    countTexEntries (createdEntries false md out) = md.textures.length := by
  unfold createdEntries create_cpmproject
  simp only [Bool.false_eq_true, if_false]
  rw [texEntriesFor_of_nonempty md.textures (fun t ht => (h t ht).1)]
  have hmap : countTexEntries
      (md.textures.map (fun t => (texPathFor t.name, ZipData.bin t.data))) =
      md.textures.length := by
    unfold countTexEntries
    have : List.filter (fun en => listStartsWith (cp "textures/") en.1 &&
        decide (en.1 ≠ cp "textures/.keep"))
        (md.textures.map (fun t => (texPathFor t.name, ZipData.bin t.data))) =
        md.textures.map (fun t => (texPathFor t.name, ZipData.bin t.data)) := by
      rw [List.filter_eq_self]
      intro en hen
      obtain ⟨t, ht, rfl⟩ := List.mem_map.mp hen
      obtain ⟨c2, hname⟩ := (h t ht).2
      simp only [hname, texPathFor_texName]
      rw [listStartsWith_self_append]
      simp [texPath_ne_keep c2]
    rw [this, List.length_map]
  simp only [List.cons_append, List.nil_append]
  rw [countTexEntries_cons_skip _ _ _ (by decide),
      countTexEntries_cons_skip _ _ _ (by decide),
      countTexEntries_append, countTexEntries_append, hmap]
  by_cases hc : (md.textures.map
      (fun t => (texPathFor t.name, ZipData.bin t.data))).length = 0
  · rw [if_pos hc]
    rw [show countTexEntries [(cp "textures/.keep", ZipData.blank)] = 0 from rfl,
        show countTexEntries [(cp "animations/.keep", ZipData.blank)] = 0 from rfl]
    omega
  · rw [if_neg hc]
    rw [show countTexEntries ([] : List ZipEntry) = 0 from rfl,
        show countTexEntries [(cp "animations/.keep", ZipData.blank)] = 0 from rfl]
    omega

end Cpm

namespace Cpm

/-- A hand-built model-data record with one texture whose data is empty
(never produced by the extractor, but accepted by the Packager). -/
def mdEmptyTex : ModelData :=
  { textures := [⟨texName 0, []⟩]
    model := some fallbackSkeleton
    animations := Json.obj []
    metadata := none }

/-- C8 counterexample: `create_cpmproject` has no `return` statement, so its
Python return value is `None`, not the count of textures written; and the
caller's report (`len(model_data.get('textures', []))`) counts *extracted*
textures, which differs from the number written whenever a texture has empty
data (here: one extracted texture, zero entries written). -/
theorem c8_counterexample :
    (create_cpmproject false mdEmptyTex (cp "o.cpmproject")).map Prod.snd =
      Except.ok (none : Option Nat) ∧
    (none : Option Nat) ≠ some 0 ∧
    countTexEntries (createdEntries false mdEmptyTex (cp "o.cpmproject")) = 0 ∧
    mdEmptyTex.textures.length = 1 := by
  refine ⟨rfl, ?_, rfl, rfl⟩
  intro h
  cases h

/-- C8 (amended): `create_cpmproject` returns `None` (its body has no
`return` statement; the written-texture count is tracked only for a debug
message), and the caller reports `len(model_data['textures'])` — the number
of *extracted* textures.  For every buffer fed through the pipeline the two
quantities nevertheless coincide, because every extracted texture has at
least 8 bytes of data and is therefore written. -/
theorem c8_theorem (data fp out : List Nat) :
    (create_cpmproject false (read_cpmmodel data fp) out).map Prod.snd =
      Except.ok (none : Option Nat) ∧
    countTexEntries (createdEntries false (read_cpmmodel data fp) out) =
      reportedTexCount data fp := by
  constructor
  · rfl
  · rw [reportedTexCount]
    refine countTexEntries_create _ out ?_
    intro t ht
    rw [read_textures] at ht
    obtain ⟨hlen, hname⟩ := pngScanTex_tex_shape data t ht
    refine ⟨?_, hname⟩
    cases hd : t.data with
    | nil => rw [hd] at hlen; simp at hlen
    | cons a l => rfl

end Cpm

namespace Cpm

/-! ### C3: recovery of well-formed, non-overlapping PNG images -/

/-- One well-formed embedded PNG image: its bytes are the 8-byte signature,
an arbitrary body, the `IEND` marker, and a (4-byte) checksum. -/
structure PngImage where
  body : List Nat
  crc : List Nat

/-- The bytes of one embedded image. -/
def pngBytes (img : PngImage) : List Nat :=
  pngSignature ++ img.body ++ iendMarker ++ img.crc

/-- A buffer laid out as alternating gaps and images, with a trailing gap:
`gap₀ ++ image₀ ++ gap₁ ++ image₁ ++ ... ++ tail`. -/
def layoutBytes : List (List Nat × PngImage) → List Nat → List Nat
  | [], tail => tail
  | (gap, img) :: rest, tail => gap ++ pngBytes img ++ layoutBytes rest tail

/-- The byte offsets of the images of a layout, the part before it having
length `off`. -/
def layoutStarts : List (List Nat × PngImage) → Nat → List Nat
  | [], _ => []
  | (gap, img) :: rest, off =>
    (off + gap.length) :: layoutStarts rest (off + gap.length + (pngBytes img).length)

/-- The textures the claim expects: one per image, in order, named from a
zero-based counter, each spanning the image exactly. -/
def expectedTextures : Nat → List PngImage → List Texture
  | _, [] => []
  | c, img :: rest => ⟨texName c, pngBytes img⟩ :: expectedTextures (c + 1) rest

theorem pngBytes_length (img : PngImage) :
    (pngBytes img).length = 12 + img.body.length + img.crc.length := by
  simp [pngBytes, pngSignature, iendMarker]
  omega

theorem layoutStarts_lb : ∀ (pieces : List (List Nat × PngImage)) (off : Nat),
    ∀ q ∈ layoutStarts pieces off, off ≤ q := by
  intro pieces
  induction pieces with
  | nil => intro off q hq; cases hq
  | cons pr rest ih =>
    intro off q hq
    obtain ⟨gap, img⟩ := pr
    simp only [layoutStarts] at hq
    rcases List.mem_cons.mp hq with he | hmem
    · omega
    · have := ih _ q hmem
      omega

theorem layoutStarts_sorted : ∀ (pieces : List (List Nat × PngImage)) (off : Nat),
    List.Pairwise (· < ·) (layoutStarts pieces off) := by
  intro pieces
  induction pieces with
  | nil => intro off; exact List.Pairwise.nil
  | cons pr rest ih =>
    intro off
    obtain ⟨gap, img⟩ := pr
    simp only [layoutStarts]
    refine List.Pairwise.cons ?_ (ih _)
    intro q hq
    have hlb := layoutStarts_lb rest _ q hq
    have hlen := pngBytes_length img
    omega

theorem layoutStarts_length : ∀ (pieces : List (List Nat × PngImage)) (off : Nat),
    (layoutStarts pieces off).length = pieces.length := by
  intro pieces
  induction pieces with
  | nil => intro off; rfl
  | cons pr rest ih =>
    intro off
    obtain ⟨gap, img⟩ := pr
    simp only [layoutStarts, List.length_cons, ih]

theorem zip_mem_left {α β : Type} : ∀ (l1 : List α) (l2 : List β), l1.length = l2.length →
    ∀ q ∈ l1, ∃ pr ∈ l1.zip l2, pr.1 = q := by
  intro l1
  induction l1 with
  | nil => intro l2 _ q hq; cases hq
  | cons a l1 ih =>
    intro l2 hlen q hq
    cases l2 with
    | nil => simp at hlen
    | cons b l2 =>
      rcases List.mem_cons.mp hq with he | hmem
      · exact ⟨(a, b), List.mem_cons_self _ _, he.symm⟩
      · obtain ⟨pr, hpr, hpr1⟩ := ih l2 (by simpa using hlen) q hmem
        exact ⟨pr, List.mem_cons_of_mem _ hpr, hpr1⟩

theorem pngHits_eq_layoutStarts (pieces : List (List Nat × PngImage))
    (data : List Nat)
    (hsig : ∀ p < data.length,
        (matchesAt pngSignature data p = true ↔ p ∈ layoutStarts pieces 0))
    (hiend : ∀ pr ∈ (layoutStarts pieces 0).zip pieces,
        findSub iendMarker data pr.1 = some (pr.1 + 8 + pr.2.2.body.length)) :
    pngHits data 0 = layoutStarts pieces 0 := by
  have hnodup1 : (pngHits data 0).Nodup :=
    (pngHits_sorted data 0).imp (fun hab => Nat.ne_of_lt hab)
  have hsorted2 := layoutStarts_sorted pieces 0
  have hnodup2 : (layoutStarts pieces 0).Nodup :=
    hsorted2.imp (fun hab => Nat.ne_of_lt hab)
  have hmem : ∀ q, q ∈ pngHits data 0 ↔ q ∈ layoutStarts pieces 0 := by
    intro q
    rw [pngHits_mem]
    constructor
    · rintro ⟨hm, _⟩
      have hb := matchesAt_true_bound pngSignature_ne_nil hm
      rw [pngSignature_length] at hb
      exact (hsig q (by omega)).mp hm
    · intro hq
      obtain ⟨pr, hpr, hpr1⟩ :=
        zip_mem_left (layoutStarts pieces 0) pieces (layoutStarts_length pieces 0) q hq
      have he := hiend pr hpr
      rw [hpr1] at he
      obtain ⟨hqe, helt, _, _⟩ := findSub_some_spec he
      have hqlen : q < data.length := by omega
      exact ⟨(hsig q hqlen).mpr hq, by rw [he]; rfl⟩
  have hanti : IsAntisymm Nat (· < ·) :=
    ⟨fun a b h1 h2 => absurd h2 (Nat.lt_asymm h1)⟩
  exact List.eq_of_perm_of_sorted
    (List.perm_of_nodup_nodup_toFinset_eq hnodup1 hnodup2 (by ext a; simp [hmem a]))
    (pngHits_sorted data 0) hsorted2

theorem sliceBytes_exact (pre mid post : List Nat) :
    sliceBytes (pre ++ (mid ++ post)) pre.length (pre.length + mid.length) = mid := by
  rw [sliceBytes, List.take_add, List.take_left, List.drop_left, List.drop_left, List.take_left]

end Cpm

namespace Cpm

theorem texturesOfHits_layout :
    ∀ (pieces : List (List Nat × PngImage)) (pre tail data : List Nat) (c : Nat),
      data = pre ++ layoutBytes pieces tail →
      (∀ pr ∈ pieces, pr.2.crc.length = 4) →
      (∀ pr ∈ (layoutStarts pieces pre.length).zip pieces,
          findSub iendMarker data pr.1 = some (pr.1 + 8 + pr.2.2.body.length)) →
      texturesOfHits data c (layoutStarts pieces pre.length) =
        expectedTextures c (pieces.map Prod.snd) := by
  intro pieces
  induction pieces with
  | nil => intro pre tail data c _ _ _; rfl
  | cons pr0 rest ih =>
    intro pre tail data c hdata hcrc hiend
    obtain ⟨gap, img⟩ := pr0
    simp only [layoutStarts, texturesOfHits, List.map_cons, expectedTextures]
    have hcrc0 : img.crc.length = 4 := hcrc (gap, img) (List.mem_cons_self _ _)
    have hiend0 := hiend (pre.length + gap.length, (gap, img))
      (by simp only [layoutStarts, List.zip_cons_cons]; exact List.mem_cons_self _ _)
    have hdata2 : data = (pre ++ gap) ++ (pngBytes img ++ layoutBytes rest tail) := by
      rw [hdata]
      simp [layoutBytes, List.append_assoc]
    congr 1
    · -- the head texture spans the image exactly
      dsimp only at hiend0
      rw [texAt, hiend0, Option.getD_some]
      have hend : pre.length + gap.length + 8 + img.body.length + 8 =
          (pre ++ gap).length + (pngBytes img).length := by
        rw [List.length_append, pngBytes_length]
        omega
      have hstart : pre.length + gap.length = (pre ++ gap).length := by
        rw [List.length_append]
      rw [hend, hstart, hdata2, sliceBytes_exact]
    · -- the remaining textures, with the consumed prefix extended
      have hlen : pre.length + gap.length + (pngBytes img).length =
          (pre ++ gap ++ pngBytes img).length := by
        simp only [List.length_append]
      rw [hlen]
      refine ih (pre ++ gap ++ pngBytes img) tail data (c + 1) ?_ ?_ ?_
      · rw [hdata]
        simp [layoutBytes, List.append_assoc]
      · intro pr hpr
        exact hcrc pr (List.mem_cons_of_mem _ hpr)
      · intro pr hpr
        refine hiend pr ?_
        simp only [layoutStarts, List.zip_cons_cons]
        refine List.mem_cons_of_mem _ ?_
        rw [← hlen] at hpr
        exact hpr

/-- C3: for a buffer laid out as `N` well-formed, non-overlapping PNG images
separated by arbitrary gaps — the PNG signature occurring exactly at the
image offsets, each image's first subsequent `IEND` being its own end marker,
and each checksum being 4 bytes — the Extractor recovers exactly `N`
textures, in ascending byte-offset order, each spanning its image from the
signature byte to the end of the 4-byte checksum, with names
`texture_0.png`, `texture_1.png`, ... from a zero-based counter in discovery
order. -/
theorem c3_theorem (pieces : List (List Nat × PngImage)) (tail data : List Nat)
    (hdata : data = layoutBytes pieces tail)
    (hcrc : ∀ pr ∈ pieces, pr.2.crc.length = 4)
    (hsig : ∀ p < data.length,
        (matchesAt pngSignature data p = true ↔ p ∈ layoutStarts pieces 0))
    (hiend : ∀ pr ∈ (layoutStarts pieces 0).zip pieces,
        findSub iendMarker data pr.1 = some (pr.1 + 8 + pr.2.2.body.length)) :
    pngScanTex data 0 0 = expectedTextures 0 (pieces.map Prod.snd) := by
  rw [pngScanTex_eq_hits, pngHits_eq_layoutStarts pieces data hsig hiend]
  exact texturesOfHits_layout pieces [] tail data 0 (by simpa using hdata) hcrc hiend

end Cpm

namespace Cpm

/-- A concrete two-image layout for the C3 witness: a complete minimal image,
a 1-byte gap, a complete image with a 1-byte body, and a 1-byte trailing gap. -/
def c3pieces : List (List Nat × PngImage) :=
  [([], ⟨[], [0, 0, 0, 0]⟩), ([5], ⟨[1], [9, 9, 9, 9]⟩)]

/-- C3 witness: the theorem applied to the concrete two-image buffer, all
hypotheses evaluated. -/
theorem c3_witness :
    pngScanTex (layoutBytes c3pieces [7]) 0 0 =
      expectedTextures 0 (c3pieces.map Prod.snd) :=
  c3_theorem c3pieces [7] (layoutBytes c3pieces [7]) rfl (by decide) (by decide) (by decide)

end Cpm

namespace Cpm

/-! ### C2: recovery of the first embedded JSON object -/

theorem scanHitAt_some_lt {data : List Nat} {i : Nat} {v : Json}
    (h : scanHitAt data i = some v) : i + 1 < data.length := by
  by_cases h1 : i + 1 < data.length
  · exact h1
  · rw [scanHitAt, if_neg h1] at h
    cases h

theorem jsonSearchAux_step (data : List Nat) (fuel i : Nat) :
    jsonSearchAux data (fuel + 1) i =
      match scanHitAt data i with
      | some v => some v
      | none => if i + 1 < data.length then jsonSearchAux data fuel (i + 1) else none := by
  by_cases h1 : i + 1 < data.length
  · simp only [jsonSearchAux, scanHitAt, if_pos h1]
    by_cases h2 : data.getD i 0 = 123
    · simp only [if_pos h2]
      by_cases h3 : (braceScanEnd data (i + 1) 1).2 = 0
      · simp only [if_pos h3]
      · simp only [if_neg h3, if_pos h1]
    · simp only [if_neg h2, if_pos h1]
  · simp only [jsonSearchAux, scanHitAt, if_neg h1]

theorem jsonSearchAux_first (data : List Nat) :
    ∀ fuel s i v, i < fuel + s → s ≤ i →
      (∀ j, s ≤ j → j < i → scanHitAt data j = none) →
      scanHitAt data i = some v →
      jsonSearchAux data fuel s = some v := by
  intro fuel
  induction fuel with
  | zero => intro s i v h1 h2 _ _; omega
  | succ fuel ih =>
    intro s i v hfuel hsi hnone hhit
    rw [jsonSearchAux_step]
    rcases Nat.eq_or_lt_of_le hsi with he | hlt
    · rw [← he] at hhit
      rw [hhit]
    · rw [hnone s le_rfl hlt]
      dsimp only
      have hlen := scanHitAt_some_lt hhit
      rw [if_pos (by omega)]
      exact ih (s + 1) i v (by omega) (by omega) (fun j hj1 hj2 => hnone j (by omega) hj2) hhit

theorem jsonSearch_first (data : List Nat) (i : Nat) (v : Json)
    (hnone : ∀ j, j < i → scanHitAt data j = none)
    (hhit : scanHitAt data i = some v) :
    jsonSearch data 0 = some v := by
  have hlen := scanHitAt_some_lt hhit
  exact jsonSearchAux_first data (data.length + 1) 0 i v (by omega) (Nat.zero_le i)
    (fun j _ hj => hnone j hj) hhit

/-- Claim C2's notion of a valid embedded JSON object byte range at position
`i`: at least one byte follows `i` (the scan loop never tries the last byte),
the byte at `i` is `{`, the structural brace count — every `{`/`}` byte
counts, string-literal context not distinguished — closes exactly, and the
delimited slice decodes and parses as a JSON object.  Balanced braces with no
structural brace bytes inside string literals is precisely the condition that
makes the naive closing position coincide with the object's true extent, so
the whole slice parses. -/
def embeddedJsonAt (data : List Nat) (i : Nat) (v : Json) : Prop :=
  i + 1 < data.length ∧ data.getD i 0 = 123 ∧
  (braceScanEnd data (i + 1) 1).2 = 0 ∧
  jsonLoads (sliceBytes data i (braceScanEnd data (i + 1) 1).1) = some v ∧
  ∃ kvs, v = Json.obj kvs

theorem embeddedJsonAt_scanHit {data : List Nat} {i : Nat} {v : Json}
    (h : embeddedJsonAt data i v) : scanHitAt data i = some v := by
  obtain ⟨h1, h2, h3, h4, _⟩ := h
  simp only [scanHitAt]
  rw [if_pos h1, if_pos h2, if_pos h3]
  exact h4

/-- C2 counterexample: the buffer `{}`.  Position 0 is a valid embedded JSON
object byte range (balanced braces, parses as the empty object) and there is
no earlier starting position, yet the Extractor's recovered model is the
fallback skeleton, not the parsed value: a successfully parsed **empty**
object is falsy and is discarded by the fallback of lines 144-153. -/
theorem c2_counterexample :
    embeddedJsonAt [123, 125] 0 (Json.obj []) ∧
    (read_cpmmodel [123, 125] (cp "m.cpmmodel")).model ≠ some (Json.obj []) := by
  constructor
  · exact ⟨by decide, rfl, rfl, rfl, [], rfl⟩
  · intro h
    rw [show (read_cpmmodel [123, 125] (cp "m.cpmmodel")).model = some fallbackSkeleton
      from rfl] at h
    have h2 := Option.some.inj h
    simp [fallbackSkeleton] at h2

/-- C2 (amended): for every buffer embedding a valid JSON object byte range
(balanced braces, no structural brace bytes inside string literals, so the
naive depth counter delimits it exactly and the slice parses) at a position
where no earlier starting position yields a successfully parsed JSON value,
the Extractor's recovered model equals exactly the parsed value of that
object, **provided the parsed object is non-empty**; the first starting
position that parses wins and scanning stops there.  (When the first parsed
value is the empty object, the fallback skeleton replaces it — see C10.) -/
theorem c2_theorem (data file_path : List Nat) (i : Nat) (v : Json)
    (hemb : embeddedJsonAt data i v)
    (hfirst : ∀ j, j < i → scanHitAt data j = none)
    (hne : v ≠ Json.obj []) :
    (read_cpmmodel data file_path).model = some v := by
  have hsearch : jsonSearch data 0 = some v :=
    jsonSearch_first data i v hfirst (embeddedJsonAt_scanHit hemb)
  obtain ⟨_, _, _, _, kvs, hkvs⟩ := hemb
  have htruthy : pyTruthy v = true := by
    rw [hkvs]
    rw [hkvs] at hne
    cases kvs with
    | nil => exact absurd rfl hne
    | cons a l => rfl
  simp [read_cpmmodel, hsearch, htruthy]

/-- C2 witness: the amended theorem applied to the 7-byte buffer holding
exactly the object with one key `a` mapped to `1`. -/
theorem c2_witness :
    (read_cpmmodel [123, 34, 97, 34, 58, 49, 125] (cp "m.cpmmodel")).model =
      some (Json.obj [([97], Json.int 1)]) :=
  c2_theorem [123, 34, 97, 34, 58, 49, 125] (cp "m.cpmmodel") 0
    (Json.obj [([97], Json.int 1)])
    ⟨by decide, rfl, rfl, rfl, [([97], Json.int 1)], rfl⟩
    (fun j hj => absurd hj (Nat.not_lt_zero j))
    (by intro h; injection h with h2; cases h2)

end Cpm
